import Mathlib

/-!
Verification of the Songs API (FastAPI + aiosqlite, `src/main.py`).

Shallow embedding of the data-access layer of the Songs API service.

The store is SQLite, accessed through aiosqlite (a thin async wrapper over
Python sqlite3).  Two runtime facts of that stack are part of the embedding,
because the source never alters the defaults:

* SQLite does **not** enforce foreign-key constraints unless the connection
  issues `PRAGMA foreign_keys = ON`; `main.py` never does, so the
  `ON DELETE CASCADE` clause declared in `init_db` is inert and
  `DELETE FROM songs` leaves the `translations` rows in place.
* Python sqlite3 connections run with the default `isolation_level = ""`:
  an implicit transaction starts at the first data-modification statement
  and is persisted only by `commit()`.  Every handler opens its connection
  with `async with aiosqlite.connect(...)`, whose exit merely closes the
  connection; closing without `commit()` discards the pending changes.
  Hence a handler that raises before reaching `db.commit()` leaves the
  store exactly as it found it.

Handlers are modelled as functions from the store state (`DB`) to
`Except ApiError (DB × response)`; an `Except.error` outcome means the
request failed and — by the rollback fact above — the store is unchanged.
The `translations.id` AUTOINCREMENT column is never selected nor returned
by any query, so rows are modelled without it; the list order of `DB`
fields mirrors rowid order (insertion order), which is the order SQLite
returns rows in for the unordered `SELECT`s of `main.py`.
-/

namespace SongsApi

/-- Pydantic model `Translation` (request/response shape). -/
structure Translation where
  language : String
  title : String
  text : String
deriving DecidableEq, Repr

/-- Pydantic model `Song` (request/response shape). -/
structure Song where
  song_number : String
  title_ta : String
  text_ta : String
  translations : List Translation
deriving DecidableEq, Repr

/-- Pydantic model `SongUpdate` (PATCH body; all fields optional). -/
structure SongUpdate where
  title_ta : Option String
  text_ta : Option String
  translations : Option (List Translation)
deriving DecidableEq, Repr

/-- A row of the `songs` table (`song_number TEXT PRIMARY KEY`). -/
structure SongRow where
  song_number : String
  title_ta : String
  text_ta : String
deriving DecidableEq, Repr

/-- A row of the `translations` table, minus the surrogate `id` column,
which no query of `main.py` ever selects or returns. -/
structure TransRow where
  song_number : String
  language : String
  title : String
  text : String
deriving DecidableEq, Repr

/-- The store: both tables, rows listed in rowid (insertion) order. -/
structure DB where
  songs : List SongRow
  translations : List TransRow
deriving DecidableEq, Repr

/-- The empty store produced by `init_db` on a fresh database file. -/
def DB.empty : DB := ⟨[], []⟩

/-- Failure outcomes a handler can produce.  `notFound` and `conflict` are
the two `HTTPException`s raised explicitly (404 and 400); `integrityError`
is an `aiosqlite.IntegrityError` escaping uncaught (FastAPI turns it into a
500 response). -/
inductive ApiError where
  | notFound
  | conflict
  | integrityError
deriving DecidableEq, Repr

/-- Python truthiness of an `Optional[str]`: `None` and `""` are falsy.
Models the `if language:` / `if song.title_ta:` tests of `main.py`. -/
def truthy : Option String → Bool
  | none => false
  | some s => s ≠ ""

/-- The query `SELECT language, title, text FROM translations WHERE song_number=?`. -/
def rowsForSong (db : DB) (sn : String) : List TransRow :=
  db.translations.filter fun r => r.song_number = sn

/-- The query `SELECT ... FROM translations WHERE song_number=? AND language=?`. -/
def rowsForSongLang (db : DB) (sn lang : String) : List TransRow :=
  db.translations.filter fun r => r.song_number = sn ∧ r.language = lang

/-- Project a table row to the response shape. -/
def TransRow.toTranslation (r : TransRow) : Translation :=
  ⟨r.language, r.title, r.text⟩

/-- The translation list attached to one song in a response: `main.py`
takes the language-filtered query when the `language` parameter is truthy
(present and non-empty), the unfiltered one otherwise. -/
def selectTranslations (db : DB) (sn : String) (language : Option String) :
    List Translation :=
  if truthy language then
    (rowsForSongLang db sn (language.getD "")).map TransRow.toTranslation
  else
    (rowsForSong db sn).map TransRow.toTranslation

/-- Route `GET /songs` (`get_songs`): every song row, each with its translation
list built by `selectTranslations`. -/
def get_songs (db : DB) (language : Option String) : List Song :=
  db.songs.map fun r =>
    ⟨r.song_number, r.title_ta, r.text_ta, selectTranslations db r.song_number language⟩

/-- Route `GET /songs/{song_number}` (`get_song`): 404 when the song row is
absent, else the song with its translation list. -/
def get_song (db : DB) (sn : String) (language : Option String) :
    Except ApiError Song :=
  match db.songs.find? (fun r => r.song_number = sn) with
  | none => .error .notFound
  | some r => .ok ⟨r.song_number, r.title_ta, r.text_ta, selectTranslations db r.song_number language⟩

/-- The loop of plain `INSERT INTO translations ...` statements in
`create_song`: each insert fails with an IntegrityError when a row with the
same `(song_number, language)` pair is already in the table (the
`UNIQUE(song_number, language)` constraint), aborting the whole request. -/
def insertTransRows (sn : String) : List Translation → List TransRow →
    Except ApiError (List TransRow)
  | [], acc => .ok acc
  | t :: rest, acc =>
    if acc.any (fun r => r.song_number = sn ∧ r.language = t.language) then
      .error .integrityError
    else
      insertTransRows sn rest (acc ++ [⟨sn, t.language, t.title, t.text⟩])

/-- Route `POST /songs` (`create_song`): the song insert fails the primary-key
constraint when `song_number` exists (caught, turned into 400 Conflict);
then each translation is inserted by a plain `INSERT` (uncaught
IntegrityError on a duplicate `(song_number, language)` pair); `commit`
runs only if every statement succeeded.  An error before `commit` leaves
the store unchanged (connection closed without commit). -/
def create_song (db : DB) (song : Song) : Except ApiError (DB × Song) :=
  if db.songs.any (fun r => r.song_number = song.song_number) then
    .error .conflict
  else
    match insertTransRows song.song_number song.translations db.translations with
    | .error e => .error e
    | .ok ts =>
      .ok (⟨db.songs ++ [⟨song.song_number, song.title_ta, song.text_ta⟩], ts⟩, song)

/-- The dynamic `UPDATE songs SET ...` of `update_song`, applied to the
matching row: each column is listed (and hence written) only when the
corresponding field is truthy. -/
def applyFieldUpdate (u : SongUpdate) (r : SongRow) : SongRow :=
  { r with
    title_ta := if truthy u.title_ta then u.title_ta.getD r.title_ta else r.title_ta
    text_ta := if truthy u.text_ta then u.text_ta.getD r.text_ta else r.text_ta }

/-- One `INSERT ... ON CONFLICT(song_number, language) DO UPDATE SET
title=excluded.title, text=excluded.text` statement: overwrite the
matching row in place when the pair exists, else append a fresh row. -/
def upsertTrans (sn : String) (t : Translation) (rows : List TransRow) :
    List TransRow :=
  if rows.any (fun r => r.song_number = sn ∧ r.language = t.language) then
    rows.map fun r =>
      if r.song_number = sn ∧ r.language = t.language then
        { r with title := t.title, text := t.text }
      else r
  else
    rows ++ [⟨sn, t.language, t.title, t.text⟩]

/-- The upsert loop of `update_song` over the supplied translations. -/
def upsertAll (sn : String) (ts : List Translation) (rows : List TransRow) :
    List TransRow :=
  ts.foldl (fun acc t => upsertTrans sn t acc) rows

/-- The store state written (and committed) by a PATCH on an existing
song: the conditional dynamic `UPDATE songs` runs when either
primary-language field is truthy, and the upsert loop runs when the
translations field is truthy (Python: `None` and the empty list are both
falsy). -/
def patchedDB (db : DB) (sn : String) (u : SongUpdate) : DB :=
  ⟨if truthy u.title_ta || truthy u.text_ta then
      db.songs.map fun r => if r.song_number = sn then applyFieldUpdate u r else r
    else db.songs,
   match u.translations with
   | some ts => if ts.isEmpty then db.translations else upsertAll sn ts db.translations
   | none => db.translations⟩

/-- Route `PATCH /songs/{song_number}` (`update_song`): 404 when the song
is absent; otherwise the writes of `patchedDB` run and are committed, and
the fully reloaded song is returned via `get_song` on the new state. -/
def update_song (db : DB) (sn : String) (u : SongUpdate) :
    Except ApiError (DB × Song) :=
  if db.songs.all (fun r => ¬ r.song_number = sn) then
    .error .notFound
  else
    match get_song (patchedDB db sn u) sn none with
    | .error e => .error e
    | .ok s => .ok (patchedDB db sn u, s)

/-- Route `DELETE /songs/{song_number}` (`delete_song`): deletes the song row
and commits.  The connection never issues `PRAGMA foreign_keys = ON`, so
the `ON DELETE CASCADE` clause of the schema is not enforced and the
translation rows stay in the table. -/
def delete_song (db : DB) (sn : String) : DB :=
  ⟨db.songs.filter (fun r => ¬ r.song_number = sn), db.translations⟩

/-- One `INSERT OR IGNORE INTO translations ...` of the bootstrap loader:
skip when a row with the same `(song_number, language)` pair exists, else
append. -/
def insertIgnoreTrans (sn : String) (acc : List TransRow) (t : Translation) :
    List TransRow :=
  if acc.any (fun r => r.song_number = sn ∧ r.language = t.language) then acc
  else acc ++ [⟨sn, t.language, t.title, t.text⟩]

/-- One record of the seed file processed by `load_initial_data`:
`INSERT OR IGNORE` of the song row (skip when a row with the same primary
key exists), then `INSERT OR IGNORE` of each translation row. -/
def loadItem (db : DB) (item : Song) : DB :=
  ⟨if db.songs.any (fun r => r.song_number = item.song_number) then db.songs
    else db.songs ++ [⟨item.song_number, item.title_ta, item.text_ta⟩],
   item.translations.foldl (insertIgnoreTrans item.song_number) db.translations⟩

/-- Startup loader `load_initial_data`: a no-op when the seed file is absent (`none`),
else every record is loaded in order with insert-if-absent semantics. -/
def load_initial_data (data : Option (List Song)) (db : DB) : DB :=
  match data with
  | none => db
  | some items => items.foldl loadItem db

/-- The store state visible after a request: the new state on success, the
original state on failure (the connection is closed without `commit`, so
SQLite discards the pending transaction). -/
def postState {α : Type} (db : DB) (r : Except ApiError (DB × α)) : DB :=
  match r with
  | .ok (db1, _) => db1
  | .error _ => db

/-- Store states reachable through the lifecycle of the service: a fresh
database initialised by `init_db`, the startup bootstrap load, and the
three mutating API calls (reads do not change the store). -/
inductive Reachable : DB → Prop where
  | init : Reachable DB.empty
  | load (data : Option (List Song)) {db : DB} :
      Reachable db → Reachable (load_initial_data data db)
  | create {db db1 : DB} {song resp : Song} :
      Reachable db → create_song db song = .ok (db1, resp) → Reachable db1
  | update {db db1 : DB} {sn : String} {u : SongUpdate} {resp : Song} :
      Reachable db → update_song db sn u = .ok (db1, resp) → Reachable db1
  | delete (sn : String) {db : DB} :
      Reachable db → Reachable (delete_song db sn)

/-- The `UNIQUE(song_number, language)` invariant: no two rows of the
`translations` table share a `(song_number, language)` pair. -/
def UniquePairs (db : DB) : Prop :=
  db.translations.Pairwise
    (fun a b => ¬ (a.song_number = b.song_number ∧ a.language = b.language))

/-! Concrete sample states used by witnesses and counterexamples. -/

/-- A create payload: song `S1` with one English translation. -/
def sampleSong : Song := ⟨"S1", "T1", "X1", [⟨"en", "ET", "EX"⟩]⟩

/-- The store after `POST /songs` with `sampleSong` on a fresh database. -/
def dbA : DB := ⟨[⟨"S1", "T1", "X1"⟩], [⟨"S1", "en", "ET", "EX"⟩]⟩

/-- The store after `DELETE /songs/S1` on `dbA`: the song row is gone but
the translation row survives (foreign keys are not enforced). -/
def dbB : DB := ⟨[], [⟨"S1", "en", "ET", "EX"⟩]⟩

/-- The store after re-creating `S1` (empty translations list) on `dbB`. -/
def dbC : DB := ⟨[⟨"S1", "T2", "X2"⟩], [⟨"S1", "en", "ET", "EX"⟩]⟩


/-- A create payload that repeats a language, making its second
translation insert fail after the song insert succeeded. -/
def dupSong : Song := ⟨"S1", "T1", "X1", [⟨"en", "a", "b"⟩, ⟨"en", "c", "d"⟩]⟩

/-- Modelled from the spec: "Returns every Song with its Translations.
If `language` is supplied, each Song's translation list is filtered to
that language only; otherwise all translations are included."  Used as
the reference against which `get_songs` is compared. -/
def specListSongs (db : DB) (language : Option String) : List Song :=
  db.songs.map fun r =>
    ⟨r.song_number, r.title_ta, r.text_ta,
      (match language with
       | some l =>
         db.translations.filter fun (t : TransRow) =>
           t.song_number = r.song_number ∧ t.language = l
       | none =>
         db.translations.filter fun (t : TransRow) =>
           t.song_number = r.song_number).map TransRow.toTranslation⟩

/-- The set of languages named in a PATCH body (empty when the
translations field is absent). -/
def mentionedLangs (u : SongUpdate) : List String :=
  (u.translations.getD []).map Translation.language


/-- Creating `sampleSong` on the empty store yields `dbA`. -/
theorem create_sampleSong : create_song DB.empty sampleSong = .ok (dbA, sampleSong) := by
  rfl

/-- The state `dbA` is reachable through the API. -/
theorem reachable_dbA : Reachable dbA :=
  .create .init create_sampleSong

/-- The state `dbB` is reachable through the API. -/
theorem reachable_dbB : Reachable dbB :=
  .delete "S1" reachable_dbA

/-! Claim C1 (code bug): the spec promises that deleting a song removes
all its translations; the code issues only `DELETE FROM songs` and never
enables foreign-key enforcement, so the `ON DELETE CASCADE` declared by
the schema does not fire and the translation rows remain as orphans. -/

/-- C1: evidence of the divergence at a concrete reachable store.  After
`DELETE /songs/S1` on a store holding song `S1` with one translation, the
song row is gone but the translation row for `S1` is still in the table:
orphan translation rows remain, contradicting the claimed cascade. -/
theorem c1_delete_leaves_translations :
    Reachable dbA ∧
    delete_song dbA "S1" = dbB ∧
    rowsForSong (delete_song dbA "S1") "S1" = [⟨"S1", "en", "ET", "EX"⟩] :=
  ⟨reachable_dbA, rfl, rfl⟩

/-- C10: a reachable store can hold orphan translation rows for an absent
song (delete does not cascade); re-creating the song with an empty
translations list succeeds, and a subsequent `GET /songs/S1` returns the
leftover translation rows instead of an empty list. -/
theorem c10_orphan_translations_resurface :
    Reachable dbB ∧
    dbB.songs = [] ∧
    create_song dbB ⟨"S1", "T2", "X2", []⟩ = .ok (dbC, ⟨"S1", "T2", "X2", []⟩) ∧
    get_song dbC "S1" none = .ok ⟨"S1", "T2", "X2", [⟨"en", "ET", "EX"⟩]⟩ :=
  ⟨reachable_dbB, rfl, rfl, rfl⟩

/-- C5: when `song_number` is absent from the store, `GET /songs/{sn}`
(with any language parameter) and `PATCH /songs/{sn}` (with any body) both
fail with NotFound, and the PATCH leaves the store unchanged. -/
theorem c5_not_found_on_missing_song (db : DB) (sn : String) (u : SongUpdate)
    (language : Option String) (h : ∀ r ∈ db.songs, r.song_number ≠ sn) :
    get_song db sn language = .error .notFound ∧
    update_song db sn u = .error .notFound ∧
    postState db (update_song db sn u) = db := by
  have hfind : db.songs.find? (fun r => r.song_number = sn) = none := by
    apply List.find?_eq_none.mpr
    intro x hx
    simp [h x hx]
  have hall : db.songs.all (fun r => ¬ r.song_number = sn) = true := by
    apply List.all_eq_true.mpr
    intro x hx
    simp [h x hx]
  have hupd : update_song db sn u = .error .notFound := by
    unfold update_song
    rw [if_pos hall]
  refine ⟨by simp [get_song, hfind], hupd, by simp [postState, hupd]⟩

/-- C5 witness at a concrete store missing song `S2`. -/
theorem c5_not_found_witness :
    get_song dbA "S2" none = .error .notFound ∧
    update_song dbA "S2" ⟨some "a", none, none⟩ = .error .notFound ∧
    postState dbA (update_song dbA "S2" ⟨some "a", none, none⟩) = dbA :=
  c5_not_found_on_missing_song dbA "S2" ⟨some "a", none, none⟩ none (by decide)

/-- C6: when a song row with the same `song_number` already exists, the
`INSERT INTO songs` violates the primary key; the handler catches the
IntegrityError and fails with Conflict, and — the connection closing
without commit — the store (in particular the existing row) is unchanged. -/
theorem c6_conflict_on_duplicate_create (db : DB) (song : Song)
    (h : ∃ r ∈ db.songs, r.song_number = song.song_number) :
    create_song db song = .error .conflict ∧
    postState db (create_song db song) = db := by
  have hany : db.songs.any (fun r => r.song_number = song.song_number) = true := by
    rcases h with ⟨r, hr, he⟩
    exact List.any_eq_true.mpr ⟨r, hr, by simp [he]⟩
  have hc : create_song db song = .error .conflict := by
    simp [create_song, hany]
  exact ⟨hc, by simp [postState, hc]⟩

/-- C6 witness: re-creating `S1` on a store that holds it. -/
theorem c6_conflict_witness :
    create_song dbA sampleSong = .error .conflict ∧
    postState dbA (create_song dbA sampleSong) = dbA :=
  c6_conflict_on_duplicate_create dbA sampleSong (by decide)

/-! Claim C8: Python truthiness makes an explicit empty string in the
PATCH body indistinguishable from an omitted field. -/

/-- Helper: an empty-string `title_ta` drives the dynamic UPDATE exactly
like an absent one. -/
theorem applyFieldUpdate_title_empty (te : Option String) (tr : Option (List Translation))
    (r : SongRow) :
    applyFieldUpdate ⟨some "", te, tr⟩ r = applyFieldUpdate ⟨none, te, tr⟩ r := by
  simp [applyFieldUpdate, truthy]

/-- Helper: an empty-string `text_ta` drives the dynamic UPDATE exactly
like an absent one. -/
theorem applyFieldUpdate_text_empty (ti : Option String) (tr : Option (List Translation))
    (r : SongRow) :
    applyFieldUpdate ⟨ti, some "", tr⟩ r = applyFieldUpdate ⟨ti, none, tr⟩ r := by
  simp [applyFieldUpdate, truthy]

/-- Helper: an empty-string `title_ta` leaves the written state as if the
field were absent. -/
theorem patchedDB_title_empty (db : DB) (sn : String) (te : Option String)
    (tr : Option (List Translation)) :
    patchedDB db sn ⟨some "", te, tr⟩ = patchedDB db sn ⟨none, te, tr⟩ := by
  simp [patchedDB, truthy, applyFieldUpdate_title_empty]

/-- Helper: an empty-string `text_ta` leaves the written state as if the
field were absent. -/
theorem patchedDB_text_empty (db : DB) (sn : String) (ti : Option String)
    (tr : Option (List Translation)) :
    patchedDB db sn ⟨ti, some "", tr⟩ = patchedDB db sn ⟨ti, none, tr⟩ := by
  simp [patchedDB, truthy, applyFieldUpdate_text_empty]

/-- Helper: a PATCH body whose `title_ta` is the empty string acts like
one whose `title_ta` is absent. -/
theorem update_song_title_empty_eq (db : DB) (sn : String) (te : Option String)
    (tr : Option (List Translation)) :
    update_song db sn ⟨some "", te, tr⟩ = update_song db sn ⟨none, te, tr⟩ := by
  simp [update_song, patchedDB_title_empty]

/-- Helper: a PATCH body whose `text_ta` is the empty string acts like
one whose `text_ta` is absent. -/
theorem update_song_text_empty_eq (db : DB) (sn : String) (ti : Option String)
    (tr : Option (List Translation)) :
    update_song db sn ⟨ti, some "", tr⟩ = update_song db sn ⟨ti, none, tr⟩ := by
  simp [update_song, patchedDB_text_empty]

/-- Helper: a successful PATCH commits exactly the state written by
`patchedDB`. -/
theorem update_song_ok_state (db : DB) (sn : String) (u : SongUpdate)
    (db1 : DB) (resp : Song)
    (h : update_song db sn u = .ok (db1, resp)) : db1 = patchedDB db sn u := by
  unfold update_song at h
  split at h
  · exact absurd h (by simp)
  · split at h
    · exact absurd h (by simp)
    · simp at h
      exact h.1.symm

/-- Helper: a PATCH with an entirely absent body changes nothing. -/
theorem update_song_noop_of_ok (db : DB) (sn : String) (db1 : DB) (resp : Song)
    (h : update_song db sn ⟨none, none, none⟩ = .ok (db1, resp)) : db1 = db := by
  rw [update_song_ok_state db sn ⟨none, none, none⟩ db1 resp h]
  simp [patchedDB, truthy]

/-- C8: a PATCH body setting `title_ta` (or `text_ta`) to the empty string
behaves identically to one omitting the field — same result (store and
returned Song); in particular a body carrying only an empty `title_ta`
leaves the store exactly as it was when it succeeds. -/
theorem c8_empty_string_treated_as_absent (db : DB) (sn : String)
    (ti te : Option String) (tr : Option (List Translation)) :
    update_song db sn ⟨some "", te, tr⟩ = update_song db sn ⟨none, te, tr⟩ ∧
    update_song db sn ⟨ti, some "", tr⟩ = update_song db sn ⟨ti, none, tr⟩ ∧
    (∀ db1 resp, update_song db sn ⟨some "", none, none⟩ = .ok (db1, resp) → db1 = db) :=
  ⟨update_song_title_empty_eq db sn te tr,
   update_song_text_empty_eq db sn ti tr,
   fun db1 resp h =>
     update_song_noop_of_ok db sn db1 resp
       (by rw [← update_song_title_empty_eq db sn none none]; exact h)⟩

/-- C8 witness at a concrete store. -/
theorem c8_empty_string_witness :
    update_song dbA "S1" ⟨some "", some "nt", none⟩ =
      update_song dbA "S1" ⟨none, some "nt", none⟩ ∧
    update_song dbA "S1" ⟨some "T9", some "", none⟩ =
      update_song dbA "S1" ⟨some "T9", none, none⟩ :=
  ⟨(c8_empty_string_treated_as_absent dbA "S1" (some "T9") (some "nt") none).1,
   (c8_empty_string_treated_as_absent dbA "S1" (some "T9") (some "nt") none).2.1⟩

/-! Claim C2: the spec asserts that a create whose translation insert
fails leaves partial state.  In fact the uncaught IntegrityError aborts
the handler before `db.commit()`, the connection closes, and sqlite3
discards the pending transaction — including the song insert. -/

/-- Helper: the translation-insert loop only ever fails with an
IntegrityError. -/
theorem insertTransRows_error_eq (sn : String) :
    ∀ (ts : List Translation) (acc : List TransRow) (e : ApiError),
      insertTransRows sn ts acc = .error e → e = .integrityError := by
  intro ts
  induction ts with
  | nil =>
    intro acc e h
    simp [insertTransRows] at h
  | cons t rest ih =>
    intro acc e h
    unfold insertTransRows at h
    split at h
    · simp at h
      exact h.symm
    · exact ih _ e h

/-- Helper: when the translation-insert loop succeeds, none of the
supplied translations had its `(song_number, language)` pair already in
the starting table. -/
theorem insertTransRows_ok_not_mem (sn : String) :
    ∀ (ts : List Translation) (acc out : List TransRow),
      insertTransRows sn ts acc = .ok out →
      ∀ t ∈ ts, acc.any (fun r => r.song_number = sn ∧ r.language = t.language) = false := by
  intro ts
  induction ts with
  | nil =>
    intro acc out h t ht
    simp at ht
  | cons t0 rest ih =>
    intro acc out h t ht
    unfold insertTransRows at h
    split at h
    · simp at h
    · rename_i hguard
      rcases List.mem_cons.mp ht with he | hr
      · subst he
        exact Bool.eq_false_iff.mpr hguard
      · have hrec := ih (acc ++ [⟨sn, t0.language, t0.title, t0.text⟩]) out h t hr
        rw [List.any_append] at hrec
        exact (Bool.or_eq_false_iff.mp hrec).1

/-- Helper: when the translation-insert loop succeeds, the supplied
translations carried pairwise distinct languages. -/
theorem insertTransRows_ok_nodup (sn : String) :
    ∀ (ts : List Translation) (acc out : List TransRow),
      insertTransRows sn ts acc = .ok out → (ts.map Translation.language).Nodup := by
  intro ts
  induction ts with
  | nil =>
    intro acc out h
    simp
  | cons t rest ih =>
    intro acc out h
    unfold insertTransRows at h
    split at h
    · simp at h
    · rename_i hguard
      simp only [List.map_cons, List.nodup_cons]
      refine ⟨?_, ih _ out h⟩
      intro hmem
      rcases List.mem_map.mp hmem with ⟨t2, ht2, hlang⟩
      have hfalse := insertTransRows_ok_not_mem sn rest _ out h t2 ht2
      rw [List.any_append] at hfalse
      have hsingle := (Bool.or_eq_false_iff.mp hfalse).2
      simp [hlang] at hsingle

/-- C2 (amended): a create whose `song_number` is fresh but whose payload
repeats a language fails with an uncaught IntegrityError, and the store is
left unchanged — no partial state survives, because the song insert was
never committed. -/
theorem c2_failed_create_rolls_back (db : DB) (song : Song)
    (hfresh : ∀ r ∈ db.songs, r.song_number ≠ song.song_number)
    (hdup : ¬ (song.translations.map Translation.language).Nodup) :
    create_song db song = .error .integrityError ∧
    postState db (create_song db song) = db := by
  have hany : db.songs.any (fun r => r.song_number = song.song_number) = false := by
    apply Bool.eq_false_iff.mpr
    intro hTrue
    rcases List.any_eq_true.mp hTrue with ⟨r, hr, hp⟩
    simp at hp
    exact hfresh r hr hp
  have hc : create_song db song = .error .integrityError := by
    unfold create_song
    rw [if_neg (by simp [hany])]
    cases hins : insertTransRows song.song_number song.translations db.translations with
    | error e =>
      rw [insertTransRows_error_eq _ _ _ _ hins]
    | ok ts =>
      exact absurd (insertTransRows_ok_nodup _ _ _ _ hins) hdup
  exact ⟨hc, by simp [postState, hc]⟩

/-- C2 witness at a concrete store: a fresh song whose payload carries the
language `fr` twice fails and leaves the store untouched. -/
theorem c2_failed_create_witness :
    create_song dbA ⟨"S2", "T", "X", [⟨"fr", "a", "b"⟩, ⟨"fr", "c", "d"⟩]⟩ =
      .error .integrityError ∧
    postState dbA (create_song dbA ⟨"S2", "T", "X", [⟨"fr", "a", "b"⟩, ⟨"fr", "c", "d"⟩]⟩) = dbA :=
  c2_failed_create_rolls_back dbA ⟨"S2", "T", "X", [⟨"fr", "a", "b"⟩, ⟨"fr", "c", "d"⟩]⟩
    (by decide) (by decide)

/-- C2 counterexample: at the instance the claim itself cites (two
translations with the same language in one POST payload), the request
fails and the store after the request holds no song row at all — the song
insert was rolled back, contradicting the claimed partial state. -/
theorem c2_counterexample_no_partial_state :
    create_song DB.empty dupSong = .error .integrityError ∧
    postState DB.empty (create_song DB.empty dupSong) = DB.empty ∧
    (postState DB.empty (create_song DB.empty dupSong)).songs = [] :=
  ⟨rfl, rfl, rfl⟩

/-! Claim C4: the listing route and its language filter.  The spec's
dichotomy is "language supplied vs absent"; the code's is Python
truthiness, which lumps the empty string with absence. -/

/-- Helper: under the UNIQUE(song_number, language) invariant, at most one
row matches a given pair. -/
theorem pairwise_filter_le_one (sn lang : String) :
    ∀ {l : List TransRow},
      l.Pairwise (fun a b => ¬(a.song_number = b.song_number ∧ a.language = b.language)) →
      (l.filter fun r => r.song_number = sn ∧ r.language = lang).length ≤ 1 := by
  intro l hp
  induction l with
  | nil => simp
  | cons a l ih =>
    rw [List.pairwise_cons] at hp
    obtain ⟨ha, hl⟩ := hp
    by_cases hpa : a.song_number = sn ∧ a.language = lang
    · rw [List.filter_cons_of_pos (by simp [hpa])]
      have hnil : (l.filter fun r => decide (r.song_number = sn ∧ r.language = lang)) = [] := by
        apply List.filter_eq_nil_iff.mpr
        intro b hb
        simp only [decide_eq_true_eq]
        intro hcontra
        exact ha b hb ⟨hpa.1.trans hcontra.1.symm, hpa.2.trans hcontra.2.symm⟩
      rw [hnil]
      simp
    · rw [List.filter_cons_of_neg (by simp [hpa])]
      exact ih hl

/-- C4 counterexample: with the supplied-but-empty language `""`, the
code returns every translation (the parameter is falsy) instead of the
claimed filter to the rows whose language is `""`. -/
theorem c4_counterexample_empty_language :
    get_songs dbA (some "") ≠ specListSongs dbA (some "") ∧
    get_songs dbA (some "") = get_songs dbA none :=
  ⟨by decide, rfl⟩

/-- C4 (amended): for every non-empty language `X`, `GET /songs?language=X`
returns every song with its translations filtered to exactly the rows of
language `X` (at most one per song under the uniqueness constraint);
without the parameter every translation is included; the supplied-but-empty
language behaves like the absent one. -/
theorem c4_language_filter (db : DB) (X : String) (s : Song) (hX : X ≠ "") :
    get_songs db (some X) = specListSongs db (some X) ∧
    get_songs db none = specListSongs db none ∧
    get_songs db (some "") = get_songs db none ∧
    (UniquePairs db → s ∈ get_songs db (some X) → s.translations.length ≤ 1) := by
  have ht : truthy (some X) = true := by simp [truthy, hX]
  refine ⟨?_, ?_, ?_, ?_⟩
  · simp [get_songs, specListSongs, selectTranslations, ht, rowsForSongLang]
  · simp [get_songs, specListSongs, selectTranslations, truthy, rowsForSong]
  · simp [get_songs, selectTranslations, truthy]
  · intro hu hs
    rcases List.mem_map.mp hs with ⟨r, hr, hmk⟩
    rw [← hmk]
    show (selectTranslations db r.song_number (some X)).length ≤ 1
    unfold selectTranslations
    rw [if_pos ht, List.length_map]
    exact pairwise_filter_le_one _ _ hu

/-- C4 witness at a concrete store holding one English translation. -/
theorem c4_language_filter_witness :
    get_songs dbA (some "en") = specListSongs dbA (some "en") ∧
    get_songs dbA none = specListSongs dbA none ∧
    get_songs dbA (some "") = get_songs dbA none ∧
    (⟨"S1", "T1", "X1", [⟨"en", "ET", "EX"⟩]⟩ : Song).translations.length ≤ 1 := by
  have h := c4_language_filter dbA "en" ⟨"S1", "T1", "X1", [⟨"en", "ET", "EX"⟩]⟩ (by decide)
  refine ⟨h.1, h.2.1, h.2.2.1, h.2.2.2 ?_ (by decide)⟩
  unfold UniquePairs
  decide

/-! Claim C7: frame property of PATCH — fields and translation rows not
named in the body are untouched. -/

/-- Helper: a single upsert leaves every row of a different
`(song_number, language)` pair where it is. -/
theorem upsertTrans_preserves (sn : String) (t : Translation) (rows : List TransRow)
    (r : TransRow) (hr : r ∈ rows)
    (hne : ¬ (r.song_number = sn ∧ r.language = t.language)) :
    r ∈ upsertTrans sn t rows := by
  unfold upsertTrans
  split
  · exact List.mem_map.mpr ⟨r, hr, by rw [if_neg hne]⟩
  · exact List.mem_append_left _ hr

/-- Helper: the upsert loop leaves every row whose language it never
names where it is. -/
theorem upsertAll_preserves (sn : String) :
    ∀ (ts : List Translation) (rows : List TransRow) (r : TransRow),
      r ∈ rows → (∀ t ∈ ts, r.language ≠ t.language) → r ∈ upsertAll sn ts rows := by
  intro ts
  induction ts with
  | nil =>
    intro rows r hr _
    exact hr
  | cons t rest ih =>
    intro rows r hr hl
    have h1 : r ∈ upsertTrans sn t rows :=
      upsertTrans_preserves sn t rows r hr
        (fun hc => hl t (List.mem_cons_self t rest) hc.2)
    exact ih (upsertTrans sn t rows) r h1 (fun t2 ht2 => hl t2 (List.mem_cons_of_mem _ ht2))

/-- Helper: a PATCH on a present song succeeds, and the committed state is
exactly `patchedDB`. -/
theorem update_song_ok (db : DB) (sn : String) (u : SongUpdate)
    (hs : ∃ r ∈ db.songs, r.song_number = sn) :
    (update_song db sn u).isOk = true ∧
    postState db (update_song db sn u) = patchedDB db sn u := by
  have hnall : ¬ (db.songs.all fun r => ¬ r.song_number = sn) = true := by
    intro hA
    rcases hs with ⟨r, hr, he⟩
    have hcontra := List.all_eq_true.mp hA r hr
    simp [he] at hcontra
  have hsome : ∃ x ∈ (patchedDB db sn u).songs, x.song_number = sn := by
    rcases hs with ⟨r, hr, he⟩
    unfold patchedDB
    dsimp only
    split
    · refine ⟨if r.song_number = sn then applyFieldUpdate u r else r,
        List.mem_map_of_mem _ hr, ?_⟩
      rw [if_pos he]
      exact he
    · exact ⟨r, hr, he⟩
  unfold update_song
  rw [if_neg hnall]
  cases hfind : (patchedDB db sn u).songs.find? (fun r => r.song_number = sn) with
  | none =>
    rcases hsome with ⟨x, hx, hxe⟩
    have hnone := List.find?_eq_none.mp hfind x hx
    simp [hxe] at hnone
  | some r2 =>
    simp [get_song, hfind, postState, Except.isOk, Except.toBool]

/-- Helper: rows whose language the PATCH body never names survive into
the committed state. -/
theorem patchedDB_frame (db : DB) (sn : String) (u : SongUpdate) (t : TransRow)
    (ht : t ∈ db.translations)
    (hl : ∀ tl ∈ mentionedLangs u, t.language ≠ tl) :
    t ∈ (patchedDB db sn u).translations := by
  unfold patchedDB
  dsimp only
  cases hu : u.translations with
  | none => exact ht
  | some ts =>
    dsimp only
    split
    · exact ht
    · refine upsertAll_preserves sn ts db.translations t ht ?_
      intro t2 ht2
      refine hl t2.language ?_
      simp only [mentionedLangs, hu, Option.getD_some]
      exact List.mem_map.mpr ⟨t2, ht2, rfl⟩

/-- C7: a PATCH on an existing song whose body holds only a (non-empty)
`text_ta` succeeds, updates exactly that column of the song row, and
leaves `title_ta` and the entire translations table unchanged; moreover
any successful PATCH leaves every translation row whose language it does
not mention exactly where it was. -/
theorem c7_partial_update_frame (db : DB) (sn v : String) (u : SongUpdate)
    (db1 : DB) (resp : Song) (t : TransRow)
    (hv : v ≠ "") (hs : ∃ r ∈ db.songs, r.song_number = sn) :
    ((update_song db sn ⟨none, some v, none⟩).isOk = true ∧
     postState db (update_song db sn ⟨none, some v, none⟩) =
       ⟨db.songs.map fun r => if r.song_number = sn then { r with text_ta := v } else r,
        db.translations⟩) ∧
    (update_song db sn u = .ok (db1, resp) → t ∈ db.translations →
     (∀ tl ∈ mentionedLangs u, t.language ≠ tl) → t ∈ db1.translations) := by
  constructor
  · have h := update_song_ok db sn ⟨none, some v, none⟩ hs
    have hp : patchedDB db sn ⟨none, some v, none⟩ =
        ⟨db.songs.map fun r => if r.song_number = sn then { r with text_ta := v } else r,
         db.translations⟩ := by
      simp [patchedDB, truthy, hv, applyFieldUpdate]
    exact ⟨h.1, hp ▸ h.2⟩
  · intro h ht hl
    rw [update_song_ok_state db sn u db1 resp h]
    exact patchedDB_frame db sn u t ht hl

/-- C7 witness: patching only `text_ta` on `dbA`, and the survival of the
English row under a PATCH that upserts only French. -/
theorem c7_partial_update_witness :
    ((update_song dbA "S1" ⟨none, some "nv", none⟩).isOk = true ∧
     postState dbA (update_song dbA "S1" ⟨none, some "nv", none⟩) =
       ⟨dbA.songs.map fun r => if r.song_number = "S1" then { r with text_ta := "nv" } else r,
        dbA.translations⟩) ∧
    (⟨"S1", "en", "ET", "EX"⟩ : TransRow) ∈
      (⟨[⟨"S1", "T1", "X1"⟩],
        [⟨"S1", "en", "ET", "EX"⟩, ⟨"S1", "fr", "a", "b"⟩]⟩ : DB).translations := by
  have h := c7_partial_update_frame dbA "S1" "nv" ⟨none, none, some [⟨"fr", "a", "b"⟩]⟩
    ⟨[⟨"S1", "T1", "X1"⟩], [⟨"S1", "en", "ET", "EX"⟩, ⟨"S1", "fr", "a", "b"⟩]⟩
    ⟨"S1", "T1", "X1", [⟨"en", "ET", "EX"⟩, ⟨"fr", "a", "b"⟩]⟩
    ⟨"S1", "en", "ET", "EX"⟩ (by decide) (by decide)
  exact ⟨h.1, h.2 (by rfl) (by decide) (by decide)⟩

/-! Claim C9: the bootstrap loader is a no-op without a seed file, only
appends (never rewrites existing rows), and is idempotent. -/

/-- Helper: presence under `any` survives appending rows. -/
theorem any_extends {α : Type} (l e : List α) (p : α → Bool) (h : l.any p = true) :
    (l ++ e).any p = true := by
  rw [List.any_append, h, Bool.true_or]

/-- Helper: one ignore-insert only ever appends. -/
theorem insertIgnoreTrans_extends (sn : String) (acc : List TransRow) (t : Translation) :
    ∃ e, insertIgnoreTrans sn acc t = acc ++ e := by
  unfold insertIgnoreTrans
  split
  · exact ⟨[], by simp⟩
  · exact ⟨_, rfl⟩

/-- Helper: the loader's translation loop only ever appends. -/
theorem foldl_insertIgnore_extends (sn : String) :
    ∀ (ts : List Translation) (acc : List TransRow),
      ∃ e, List.foldl (insertIgnoreTrans sn) acc ts = acc ++ e := by
  intro ts
  induction ts with
  | nil =>
    intro acc
    exact ⟨[], by simp⟩
  | cons t rest ih =>
    intro acc
    rw [List.foldl_cons]
    rcases insertIgnoreTrans_extends sn acc t with ⟨e1, he1⟩
    rcases ih (insertIgnoreTrans sn acc t) with ⟨e2, he2⟩
    refine ⟨e1 ++ e2, ?_⟩
    rw [he2, he1, List.append_assoc]

/-- Helper: loading one record only ever appends. -/
theorem loadItem_extends (db : DB) (item : Song) :
    ∃ es ts, loadItem db item = ⟨db.songs ++ es, db.translations ++ ts⟩ := by
  rcases foldl_insertIgnore_extends item.song_number item.translations db.translations
    with ⟨e, he⟩
  unfold loadItem
  split
  · exact ⟨[], e, by rw [he]; simp⟩
  · exact ⟨[⟨item.song_number, item.title_ta, item.text_ta⟩], e, by rw [he]⟩

/-- Helper: the loader only ever appends; every row present before the
load is still present, unmodified and in place, afterwards. -/
theorem load_extends :
    ∀ (items : List Song) (db : DB),
      ∃ es ts, items.foldl loadItem db = ⟨db.songs ++ es, db.translations ++ ts⟩ := by
  intro items
  induction items with
  | nil =>
    intro db
    exact ⟨[], [], by simp⟩
  | cons i rest ih =>
    intro db
    rw [List.foldl_cons]
    rcases loadItem_extends db i with ⟨es1, ts1, he1⟩
    rcases ih (loadItem db i) with ⟨es2, ts2, he2⟩
    refine ⟨es1 ++ es2, ts1 ++ ts2, ?_⟩
    rw [he2, he1]
    simp [List.append_assoc]

/-- Helper: after the translation loop runs, every processed pair is
present. -/
theorem foldl_insertIgnore_loads (sn : String) :
    ∀ (ts : List Translation) (acc : List TransRow) (t : Translation), t ∈ ts →
      (List.foldl (insertIgnoreTrans sn) acc ts).any
        (fun r => r.song_number = sn ∧ r.language = t.language) = true := by
  intro ts
  induction ts with
  | nil =>
    intro acc t ht
    simp at ht
  | cons t0 rest ih =>
    intro acc t ht
    rw [List.foldl_cons]
    rcases List.mem_cons.mp ht with he | hr
    · subst he
      have hbase : (insertIgnoreTrans sn acc t).any
          (fun r => r.song_number = sn ∧ r.language = t.language) = true := by
        unfold insertIgnoreTrans
        split
        · rename_i hg
          exact hg
        · rw [List.any_append]
          simp
      rcases foldl_insertIgnore_extends sn rest (insertIgnoreTrans sn acc t) with ⟨e, he⟩
      rw [he]
      exact any_extends _ _ _ hbase
    · exact ih (insertIgnoreTrans sn acc t0) t hr

/-- Helper: after loading a record, its song row and all its translation
pairs are present. -/
theorem loadItem_loads (db : DB) (item : Song) :
    ((loadItem db item).songs.any (fun r => r.song_number = item.song_number) = true) ∧
    (∀ t ∈ item.translations,
      (loadItem db item).translations.any
        (fun r => r.song_number = item.song_number ∧ r.language = t.language) = true) := by
  constructor
  · unfold loadItem
    dsimp only
    split
    · rename_i hg
      exact hg
    · rw [List.any_append]
      simp
  · intro t ht
    exact foldl_insertIgnore_loads item.song_number item.translations db.translations t ht

/-- Helper: the translation loop does nothing when every pair is already
present. -/
theorem foldl_insertIgnore_id (sn : String) (acc : List TransRow) :
    ∀ ts : List Translation,
      (∀ t ∈ ts, acc.any (fun r => r.song_number = sn ∧ r.language = t.language) = true) →
      List.foldl (insertIgnoreTrans sn) acc ts = acc := by
  intro ts
  induction ts with
  | nil =>
    intro _
    rfl
  | cons t rest ih =>
    intro h
    rw [List.foldl_cons]
    have hg := h t (List.mem_cons_self t rest)
    rw [show insertIgnoreTrans sn acc t = acc from by unfold insertIgnoreTrans; rw [if_pos hg]]
    exact ih (fun t2 ht2 => h t2 (List.mem_cons_of_mem _ ht2))

/-- Helper: loading a record whose rows are all present does nothing. -/
theorem loadItem_of_loaded (db : DB) (item : Song)
    (hsong : db.songs.any (fun r => r.song_number = item.song_number) = true)
    (htrans : ∀ t ∈ item.translations,
      db.translations.any
        (fun r => r.song_number = item.song_number ∧ r.language = t.language) = true) :
    loadItem db item = db := by
  unfold loadItem
  rw [if_pos hsong, foldl_insertIgnore_id item.song_number db.translations item.translations htrans]

/-- Helper: after a full load, every loaded record's rows are present. -/
theorem load_all_loaded :
    ∀ (items : List Song) (db : DB) (item : Song), item ∈ items →
      ((items.foldl loadItem db).songs.any
        (fun r => r.song_number = item.song_number) = true) ∧
      (∀ t ∈ item.translations,
        (items.foldl loadItem db).translations.any
          (fun r => r.song_number = item.song_number ∧ r.language = t.language) = true) := by
  intro items
  induction items with
  | nil =>
    intro db item h
    simp at h
  | cons i rest ih =>
    intro db item h
    rw [List.foldl_cons]
    rcases List.mem_cons.mp h with he | hr
    · subst he
      have hbase := loadItem_loads db item
      rcases load_extends rest (loadItem db item) with ⟨es, ts, hext⟩
      rw [hext]
      exact ⟨any_extends _ _ _ hbase.1, fun t ht => any_extends _ _ _ (hbase.2 t ht)⟩
    · exact ih (loadItem db i) item hr

/-- Helper: loading records whose rows are all present does nothing. -/
theorem load_id_of_loaded :
    ∀ (items : List Song) (db : DB),
      (∀ item ∈ items,
        (db.songs.any (fun r => r.song_number = item.song_number) = true) ∧
        (∀ t ∈ item.translations,
          db.translations.any
            (fun r => r.song_number = item.song_number ∧ r.language = t.language) = true)) →
      items.foldl loadItem db = db := by
  intro items
  induction items with
  | nil =>
    intro db _
    rfl
  | cons i rest ih =>
    intro db h
    rw [List.foldl_cons,
      loadItem_of_loaded db i (h i (List.mem_cons_self i rest)).1
        (h i (List.mem_cons_self i rest)).2]
    exact ih db (fun item hit => h item (List.mem_cons_of_mem _ hit))

/-- C9: the bootstrap loader is idempotent (loading the same seed twice
equals loading it once, so no rows are duplicated), non-destructive (the
prior rows survive as an untouched initial segment), and a no-op when the
seed file is absent. -/
theorem c9_loader_idempotent (data : Option (List Song)) (db : DB) :
    load_initial_data data (load_initial_data data db) = load_initial_data data db ∧
    (∃ es ts, (load_initial_data data db).songs = db.songs ++ es ∧
              (load_initial_data data db).translations = db.translations ++ ts) ∧
    load_initial_data none db = db := by
  refine ⟨?_, ?_, rfl⟩
  · cases data with
    | none => rfl
    | some items =>
      show items.foldl loadItem (items.foldl loadItem db) = items.foldl loadItem db
      exact load_id_of_loaded items (items.foldl loadItem db)
        (fun item hit => load_all_loaded items db item hit)
  · cases data with
    | none => exact ⟨[], [], by simp [load_initial_data], by simp [load_initial_data]⟩
    | some items =>
      rcases load_extends items db with ⟨es, ts, he⟩
      exact ⟨es, ts, by simp [load_initial_data, he], by simp [load_initial_data, he]⟩

/-! Claim C3: the UNIQUE(song_number, language) invariant holds in every
reachable store, and the PATCH upsert overwrites in place. -/

/-- Helper: appending a row that clashes with no existing row preserves
pairwise distinctness of the pairs. -/
theorem pairwise_append_one {l : List TransRow} {x : TransRow}
    (h : l.Pairwise (fun a b => ¬(a.song_number = b.song_number ∧ a.language = b.language)))
    (hx : ∀ a ∈ l, ¬(a.song_number = x.song_number ∧ a.language = x.language)) :
    (l ++ [x]).Pairwise
      (fun a b => ¬(a.song_number = b.song_number ∧ a.language = b.language)) := by
  rw [List.pairwise_append]
  exact ⟨h, List.pairwise_singleton _ x,
    fun a ha b hb => by rw [List.mem_singleton.mp hb]; exact hx a ha⟩

/-- Helper: a failed `any` check over a pair predicate gives the pointwise
negation. -/
theorem any_pair_false {acc : List TransRow} {sn lang : String}
    (h : acc.any (fun r => r.song_number = sn ∧ r.language = lang) = false) :
    ∀ a ∈ acc, ¬(a.song_number = sn ∧ a.language = lang) := by
  intro a ha
  have hne := List.any_eq_false.mp h a ha
  simpa using hne

/-- Helper: the create-translation loop preserves the uniqueness
invariant (it only appends rows whose pair is absent). -/
theorem inv_insertTransRows (sn : String) :
    ∀ (ts : List Translation) (acc out : List TransRow),
      acc.Pairwise (fun a b => ¬(a.song_number = b.song_number ∧ a.language = b.language)) →
      insertTransRows sn ts acc = .ok out →
      out.Pairwise (fun a b => ¬(a.song_number = b.song_number ∧ a.language = b.language)) := by
  intro ts
  induction ts with
  | nil =>
    intro acc out hp h
    simp [insertTransRows] at h
    exact h ▸ hp
  | cons t rest ih =>
    intro acc out hp h
    unfold insertTransRows at h
    split at h
    · simp at h
    · rename_i hg
      refine ih _ out ?_ h
      refine pairwise_append_one hp ?_
      exact any_pair_false (Bool.eq_false_iff.mpr hg)

/-- Helper: one upsert preserves the uniqueness invariant (it overwrites
in place or appends an absent pair). -/
theorem inv_upsertTrans (sn : String) (t : Translation) (rows : List TransRow)
    (hp : rows.Pairwise
      (fun a b => ¬(a.song_number = b.song_number ∧ a.language = b.language))) :
    (upsertTrans sn t rows).Pairwise
      (fun a b => ¬(a.song_number = b.song_number ∧ a.language = b.language)) := by
  have hsn : ∀ x : TransRow,
      ((if x.song_number = sn ∧ x.language = t.language then
          { x with title := t.title, text := t.text } else x) : TransRow).song_number =
        x.song_number := by
    intro x
    split <;> rfl
  have hlang : ∀ x : TransRow,
      ((if x.song_number = sn ∧ x.language = t.language then
          { x with title := t.title, text := t.text } else x) : TransRow).language =
        x.language := by
    intro x
    split <;> rfl
  unfold upsertTrans
  split
  · refine hp.map _ ?_
    intro a b hab hc
    rw [hsn, hsn, hlang, hlang] at hc
    exact hab hc
  · rename_i hg
    exact pairwise_append_one hp (any_pair_false (Bool.eq_false_iff.mpr hg))

/-- Helper: the upsert loop preserves the uniqueness invariant. -/
theorem inv_upsertAll (sn : String) :
    ∀ (ts : List Translation) (rows : List TransRow),
      rows.Pairwise (fun a b => ¬(a.song_number = b.song_number ∧ a.language = b.language)) →
      (upsertAll sn ts rows).Pairwise
        (fun a b => ¬(a.song_number = b.song_number ∧ a.language = b.language)) := by
  intro ts
  induction ts with
  | nil =>
    intro rows hp
    exact hp
  | cons t rest ih =>
    intro rows hp
    exact ih (upsertTrans sn t rows) (inv_upsertTrans sn t rows hp)

/-- Helper: one ignore-insert preserves the uniqueness invariant. -/
theorem inv_insertIgnoreTrans (sn : String) (acc : List TransRow) (t : Translation)
    (hp : acc.Pairwise
      (fun a b => ¬(a.song_number = b.song_number ∧ a.language = b.language))) :
    (insertIgnoreTrans sn acc t).Pairwise
      (fun a b => ¬(a.song_number = b.song_number ∧ a.language = b.language)) := by
  unfold insertIgnoreTrans
  split
  · exact hp
  · rename_i hg
    exact pairwise_append_one hp (any_pair_false (Bool.eq_false_iff.mpr hg))

/-- Helper: the loader's translation loop preserves the uniqueness
invariant. -/
theorem inv_foldl_insertIgnore (sn : String) :
    ∀ (ts : List Translation) (acc : List TransRow),
      acc.Pairwise (fun a b => ¬(a.song_number = b.song_number ∧ a.language = b.language)) →
      (List.foldl (insertIgnoreTrans sn) acc ts).Pairwise
        (fun a b => ¬(a.song_number = b.song_number ∧ a.language = b.language)) := by
  intro ts
  induction ts with
  | nil =>
    intro acc hp
    exact hp
  | cons t rest ih =>
    intro acc hp
    rw [List.foldl_cons]
    exact ih (insertIgnoreTrans sn acc t) (inv_insertIgnoreTrans sn acc t hp)

/-- Helper: loading records preserves the uniqueness invariant. -/
theorem inv_load :
    ∀ (items : List Song) (db : DB),
      UniquePairs db → UniquePairs (items.foldl loadItem db) := by
  intro items
  induction items with
  | nil =>
    intro db hp
    exact hp
  | cons i rest ih =>
    intro db hp
    rw [List.foldl_cons]
    refine ih (loadItem db i) ?_
    exact inv_foldl_insertIgnore i.song_number i.translations db.translations hp

/-- Helper: a successful create preserves the uniqueness invariant. -/
theorem inv_create (db db1 : DB) (song resp : Song)
    (h : create_song db song = .ok (db1, resp)) (hp : UniquePairs db) :
    UniquePairs db1 := by
  unfold create_song at h
  split at h
  · exact absurd h (by simp)
  · revert h
    cases hins : insertTransRows song.song_number song.translations db.translations with
    | error e =>
      intro h
      exact absurd h (by simp)
    | ok ts =>
      intro h
      simp at h
      unfold UniquePairs
      rw [← h.1]
      exact inv_insertTransRows song.song_number song.translations db.translations ts hp hins

/-- Helper: a successful PATCH preserves the uniqueness invariant. -/
theorem inv_update (db db1 : DB) (sn : String) (u : SongUpdate) (resp : Song)
    (h : update_song db sn u = .ok (db1, resp)) (hp : UniquePairs db) :
    UniquePairs db1 := by
  rw [update_song_ok_state db sn u db1 resp h]
  unfold UniquePairs patchedDB
  dsimp only
  cases hu : u.translations with
  | none => exact hp
  | some ts =>
    dsimp only
    split
    · exact hp
    · exact inv_upsertAll sn ts db.translations hp

/-- Helper: every store reachable through the API satisfies the
UNIQUE(song_number, language) invariant. -/
theorem reachable_unique_pairs : ∀ db : DB, Reachable db → UniquePairs db := by
  intro db h
  induction h with
  | init => exact List.Pairwise.nil
  | load data hdb ih =>
    rename_i db2
    cases data with
    | none => exact ih
    | some items => exact inv_load items db2 ih
  | create hdb hok ih => exact inv_create _ _ _ _ hok ih
  | update hdb hok ih => exact inv_update _ _ _ _ _ hok ih
  | delete sn hdb ih => exact ih

/-- C3: every reachable store has at most one translation row per
`(song_number, language)` pair, and a PATCH upsert for a pair already in
the table succeeds and overwrites that row's title/text in place — the
table keeps its length, so no second row appears. -/
theorem c3_unique_pairs_and_upsert (db : DB) (sn lang ti te : String)
    (hreach : Reachable db)
    (hsong : ∃ r ∈ db.songs, r.song_number = sn)
    (hpair : db.translations.any (fun r => r.song_number = sn ∧ r.language = lang) = true) :
    UniquePairs db ∧
    (update_song db sn ⟨none, none, some [⟨lang, ti, te⟩]⟩).isOk = true ∧
    postState db (update_song db sn ⟨none, none, some [⟨lang, ti, te⟩]⟩) =
      ⟨db.songs,
       db.translations.map fun r =>
         if r.song_number = sn ∧ r.language = lang then
           { r with title := ti, text := te } else r⟩ ∧
    (db.translations.map fun r =>
       if r.song_number = sn ∧ r.language = lang then
         { r with title := ti, text := te } else r).length = db.translations.length := by
  refine ⟨reachable_unique_pairs db hreach, (update_song_ok db sn _ hsong).1, ?_,
    List.length_map _ _⟩
  rw [(update_song_ok db sn _ hsong).2]
  unfold patchedDB
  dsimp only
  congr 1
  show upsertAll sn [⟨lang, ti, te⟩] db.translations = _
  unfold upsertAll
  rw [List.foldl_cons, List.foldl_nil]
  unfold upsertTrans
  dsimp only
  rw [if_pos hpair]

/-- C3 witness: overwriting the English translation of `S1` on the
reachable store `dbA`. -/
theorem c3_unique_pairs_witness :
    UniquePairs dbA ∧
    (update_song dbA "S1" ⟨none, none, some [⟨"en", "U", "V"⟩]⟩).isOk = true ∧
    postState dbA (update_song dbA "S1" ⟨none, none, some [⟨"en", "U", "V"⟩]⟩) =
      ⟨dbA.songs,
       dbA.translations.map fun r =>
         if r.song_number = "S1" ∧ r.language = "en" then
           { r with title := "U", text := "V" } else r⟩ ∧
    (dbA.translations.map fun r =>
       if r.song_number = "S1" ∧ r.language = "en" then
         { r with title := "U", text := "V" } else r).length = dbA.translations.length :=
  c3_unique_pairs_and_upsert dbA "S1" "en" "U" "V" reachable_dbA (by decide) (by decide)

end SongsApi
